import Mathlib

/-
Verification of the DEARS genetic-algorithm library (Rust).

Shallow embedding conventions:
  - `f64` values that are only generated, added and compared are modelled as ℚ
    (`FVal` additionally models the NaN case where ordering matters);
  - randomness is an explicit oracle: `u : Nat → ℚ` gives the per-index uniform
    [0,1) draws (`rng.gen::<f64>()`), `v : Nat → Nat` / `draws : Nat → Nat` give
    the raw material for `gen_range`, reduced modulo the range size so that
    exactly the values of the requested range are realisable;
  - Rust panics (`assert!`, `todo!`, `expect`, `gen_range` on an empty range)
    become `Except.error` with one error constructor per distinct panic site.
-/

namespace DEARS

/-- Fitness scalar: an `f64` that is either NaN or an ordered (rational) value.
Only ordering is ever used on fitnesses, so ℚ stands in for the non-NaN floats. -/
inductive FVal where
  | nan : FVal
  | val : ℚ → FVal
deriving DecidableEq

/-- Rust `PartialOrd::partial_cmp` on `f64`: `None` exactly when either side is NaN. -/
def FVal.pcmp : FVal → FVal → Option Ordering
  | .nan, _ => none
  | _, .nan => none
  | .val a, .val b =>
      if a < b then some Ordering.lt
      else if b < a then some Ordering.gt
      else some Ordering.eq

/-- Distinct panic sites of `TournamentSelection::select` (src/src/selection.rs 32-44):
the `assert!` on an empty fitness vector, the `expect` on a failed `partial_cmp`,
and the `expect` on `max_by` of an empty candidate iterator. -/
inductive SelPanic where
  | emptyFitness
  | failedCompare
  | zeroTournament
deriving DecidableEq

structure TournamentSelection where
  tournament_size : Nat

/-- Fold of Rust `Iterator::max_by` after its first element: keep the accumulator
only on `Greater`, otherwise move to the new element (so the last maximum wins);
the comparator `fitnesses[a].partial_cmp(&fitnesses[b]).expect(..)` panics on `None`.
Candidate indices are always in bounds in every use, so `getD _ .nan` reads the
actual element. -/
def maxByGo (fit : List FVal) (acc : Nat) : List Nat → Except SelPanic Nat
  | [] => .ok acc
  | b :: rest =>
    match FVal.pcmp (fit.getD acc .nan) (fit.getD b .nan) with
    | none => .error .failedCompare
    | some Ordering.gt => maxByGo fit acc rest
    | some Ordering.lt => maxByGo fit b rest
    | some Ordering.eq => maxByGo fit b rest

/-- Rust `Iterator::max_by`: `None` (here: the `expect` panic blaming a zero
tournament size) on an empty iterator, else the fold `maxByGo`. -/
def maxBy (fit : List FVal) : List Nat → Except SelPanic Nat
  | [] => .error .zeroTournament
  | a :: rest => maxByGo fit a rest

/-- Rust `TournamentSelection::select` (src/src/selection.rs 32-44): assert the
fitness vector is non-empty, draw `tournament_size` candidate indices uniformly
from `[0, len)` (`draws k % len` realises exactly those values), and take the
maximum by fitness. -/
def TournamentSelection.select (t : TournamentSelection) (draws : Nat → Nat)
    (fitnesses : List FVal) : Except SelPanic Nat :=
  let len := fitnesses.length
  if len = 0 then .error .emptyFitness
  else
    let options := (List.range t.tournament_size).map (fun k => draws k % len)
    maxBy fitnesses options

/-- Panic site of `Shuffle::mutate`: `rng.gen_range(0..(size - 2))` on an empty
range (which is what `size = 2` produces; `size < 2` underflows in debug builds). -/
inductive ShufflePanic where
  | emptyRange
deriving DecidableEq

structure Shuffle where
  indpb : ℚ

/-- Swap-partner computation of `Shuffle::mutate` (src/src/mutation.rs 121-128):
a raw draw from `[0, size - 2)` (modelled as `raw % (size - 2)`), bumped by one
when it is at least `idx`. -/
def partnerIdx (size idx raw : Nat) : Nat :=
  let swap_idx := raw % (size - 2)
  if swap_idx ≥ idx then swap_idx + 1 else swap_idx

/-- Rust `slice::swap` on a list, for the in-bounds indices it is called with. -/
def listSwap (l : List α) (i j : Nat) : List α :=
  match l[i]?, l[j]? with
  | some a, some b => (l.set i b).set j a
  | _, _ => l

/-- Loop body of `Shuffle::mutate` for index `idx`: when the Bernoulli draw
fires (`u idx < indpb`), sample the swap partner — panicking if the range
`0..(size-2)` is empty — and swap; an earlier panic aborts the whole loop. -/
def shuffleStep (indpb : ℚ) (u : Nat → ℚ) (v : Nat → Nat) (size : Nat)
    (st : Except ShufflePanic (List α)) (idx : Nat) : Except ShufflePanic (List α) :=
  match st with
  | .error e => .error e
  | .ok l =>
    if u idx < indpb then
      if size - 2 = 0 then .error .emptyRange
      else .ok (listSwap l idx (partnerIdx size idx (v idx)))
    else .ok l

/-- Rust `Shuffle::mutate` (src/src/mutation.rs 115-131): `size = genome.len()`
is read once, then the loop runs over `idx in 0..size`. -/
def Shuffle.mutate (s : Shuffle) (u : Nat → ℚ) (v : Nat → Nat) (g : List α) :
    Except ShufflePanic (List α) :=
  (List.range g.length).foldl (shuffleStep s.indpb u v g.length) (.ok g)

/-- Panic site of `crossover::one_point`: the `assert!(length > 1, ..)`. -/
inductive CrossoverPanic where
  | lengthTooShort
deriving DecidableEq

/-- Functional form of the loop `for i in crossover_point..length { swap(ind1[i], ind2[i]) }`:
each genome keeps its prefix below `cp` and its tail from `length` on, and receives
the other genome segment `[cp, length)`. -/
def swapSuffix (cp length : Nat) (ind1 ind2 : List α) : List α × List α :=
  (ind1.take cp ++ ((ind2.take length).drop cp ++ ind1.drop length),
   ind2.take cp ++ ((ind1.take length).drop cp ++ ind2.drop length))

/-- Rust `crossover::one_point` (src/src/crossover.rs 21-29): `length` is the
minimum of the two lengths, the assert requires `length > 1`, and the crossover
point is `gen_range(1..length)` — modelled as `1 + draw % (length - 1)`, which
realises exactly the values in `[1, length)`. -/
def one_point (draw : Nat) (ind1 ind2 : List α) : Except CrossoverPanic (List α × List α) :=
  let length := min ind1.length ind2.length
  if length > 1 then
    let crossover_point := 1 + draw % (length - 1)
    .ok (swapSuffix crossover_point length ind1 ind2)
  else .error .lengthTooShort

/-- Construction error of the normal distribution. -/
inductive NormalError where
  | badVariance
deriving DecidableEq

structure Normal where
  mean : ℚ
  std_dev : ℚ

/-- Modelled from the spec: `rand_distr::Normal::new` — the `rand_distr` crate is a
dependency whose source (and pinned version) is not part of this repository.
The spec states construction fails when the standard deviation is non-positive. -/
def Normal.new (mean std_dev : ℚ) : Except NormalError Normal :=
  if std_dev ≤ 0 then .error .badVariance else .ok ⟨mean, std_dev⟩

structure ByDist where
  dist : Normal
  indpb : ℚ

/-- Rust `ByDist::gaussian` (src/src/mutation.rs 64-77): `Normal::new(mean, stddev)?`
then wrap; the `?` propagates the construction error, so no `ByDist` value (and
hence no `mutate`) ever exists for rejected parameters. -/
def ByDist.gaussian (mean stddev indpb : ℚ) : Except NormalError ByDist :=
  match Normal.new mean stddev with
  | .error e => .error e
  | .ok dist => .ok ⟨dist, indpb⟩

/-- Rust `ByDist::mutate` (src/src/mutation.rs 80-95): per element, when the
Bernoulli draw fires, add a sample of the distribution (`s i` is the sample the
oracle would return at index `i`). -/
def ByDist.mutate (m : ByDist) (u : Nat → ℚ) (s : Nat → ℚ) (g : List ℚ) : List ℚ :=
  g.mapIdx (fun i x => if u i < m.indpb then x + s i else x)

/-- Panic site of `Population::select` (src/src/population.rs 38-40): `todo!()`. -/
inductive PopulationPanic where
  | todoUnimplemented
deriving DecidableEq

/-- Rust `Population` (src/src/population.rs): genomes, parallel fitnesses, and one
bound instance of each operator kind, the operators taken abstractly as functions
(`selector` is the bound `SelectMany::select_n`). -/
structure Population (G F : Type) where
  individuals : List G
  fitnesses : List F
  mutator : G → G
  crossover : G → G → G × G
  selector : List F → Nat → List Nat

/-- Rust `Population::mutate_with_chance` (src/src/population.rs 30-36): for each
genome, draw `rand::random::<f64>()` (`r i` for genome `i`) and invoke the bound
mutator exactly when the draw is strictly GREATER than `indpb`. -/
def Population.mutate_with_chance (p : Population G F) (indpb : ℚ) (r : Nat → ℚ) :
    Population G F :=
  ⟨p.individuals.mapIdx (fun i x => if r i > indpb then p.mutator x else x),
   p.fitnesses, p.mutator, p.crossover, p.selector⟩

/-- Rust `Population::select` (src/src/population.rs 38-40): the body is `todo!()`,
which panics unconditionally before anything else can happen. -/
def Population.select (_p : Population G F) (_n : Nat) : Except PopulationPanic (List Nat) :=
  .error .todoUnimplemented

/-! Theorems. -/

lemma shuffleStep_ok_of_sub_ne (indpb : ℚ) (u : Nat → ℚ) (v : Nat → Nat) (size : Nat)
    (hsz : size - 2 ≠ 0) (l : List α) (idx : Nat) :
    ∃ l₂, shuffleStep indpb u v size (.ok l) idx = .ok l₂ := by
  unfold shuffleStep
  by_cases hu : u idx < indpb
  · exact ⟨listSwap l idx (partnerIdx size idx (v idx)), by simp [hu, hsz]⟩
  · exact ⟨l, by simp [hu]⟩

lemma foldl_shuffleStep_ok (indpb : ℚ) (u : Nat → ℚ) (v : Nat → Nat) (size : Nat)
    (hsz : size - 2 ≠ 0) :
    ∀ (idxs : List Nat) (l : List α),
      ∃ l₂, idxs.foldl (shuffleStep indpb u v size) (.ok l) = .ok l₂ := by
  intro idxs
  induction idxs with
  | nil => exact fun l => ⟨l, rfl⟩
  | cons i idxs ih =>
    intro l
    obtain ⟨l₁, h₁⟩ := shuffleStep_ok_of_sub_ne indpb u v size hsz l i
    rw [List.foldl_cons, h₁]
    exact ih l₁

/-- C3 (amended to length ≥ 3): for every genome of length at least 3, whenever the
per-element Bernoulli event fires the swap-partner draw succeeds and produces an
in-bounds index, and `Shuffle::mutate` never aborts. (As stated for length ≥ 2 the
claim is false: see the size-2 counterexample.) -/
theorem shuffle_mutate_total_from_three (s : Shuffle) (u : Nat → ℚ) (v : Nat → Nat)
    (g : List α) (h : 3 ≤ g.length) :
    (∃ g₂, s.mutate u v g = .ok g₂) ∧
      ∀ idx raw, idx < g.length → partnerIdx g.length idx raw < g.length := by
  constructor
  · unfold Shuffle.mutate
    exact foldl_shuffleStep_ok s.indpb u v g.length (by omega) (List.range g.length) g
  · intro idx raw _
    have hm : raw % (g.length - 2) < g.length - 2 := Nat.mod_lt _ (by omega)
    unfold partnerIdx
    dsimp only
    split <;> omega

/-- C3 counterexample: on a genome of length exactly 2 whose first Bernoulli draw
fires, `Shuffle::mutate` samples `gen_range(0..(2-2))`, an empty range, and aborts. -/
theorem shuffle_size_two_aborts :
    Shuffle.mutate ⟨1⟩ (fun _ => 0) (fun _ => 0) [(1:ℚ), 2] = .error .emptyRange := rfl

/-- C3 witness: a concrete genome of length 3 on which `Shuffle::mutate` succeeds. -/
theorem shuffle_mutate_total_from_three_witness :
    (∃ g₂, Shuffle.mutate ⟨1⟩ (fun _ => 0) (fun _ => 0) [(1:ℚ), 2, 3] = .ok g₂) ∧
      ∀ idx raw, idx < List.length [(1:ℚ), 2, 3] →
        partnerIdx (List.length [(1:ℚ), 2, 3]) idx raw < List.length [(1:ℚ), 2, 3] :=
  shuffle_mutate_total_from_three ⟨1⟩ (fun _ => 0) (fun _ => 0) [1, 2, 3] (by decide)

/-- C9: for every genome large enough for the draw to be defined (length ≥ 3) and
every index, the swap partner computed by `Shuffle::mutate` differs from the index
itself: no element is ever swapped with itself. -/
theorem partner_ne_self (g : List α) (idx raw : Nat) (h3 : 3 ≤ g.length)
    (hidx : idx < g.length) : partnerIdx g.length idx raw ≠ idx := by
  unfold partnerIdx
  dsimp only
  split <;> omega

/-- C9 witness: concrete genome of length 3, index 1, raw draw 0. -/
theorem partner_ne_self_witness :
    partnerIdx (List.length [(1:ℚ), 2, 3]) 1 0 ≠ 1 :=
  partner_ne_self [(1:ℚ), 2, 3] 1 0 (by decide) (by decide)

/-- C10: for genomes of length ≥ 3 the swap partner is always at most `length - 2`:
the last index is never selected as another index's swap partner, so the partner is
not uniform over all indices different from the current one. -/
theorem partner_never_last (g : List α) (idx raw : Nat) (h3 : 3 ≤ g.length)
    (hidx : idx < g.length) :
    partnerIdx g.length idx raw ≤ g.length - 2 ∧
      partnerIdx g.length idx raw ≠ g.length - 1 := by
  have hm : raw % (g.length - 2) < g.length - 2 := Nat.mod_lt _ (by omega)
  unfold partnerIdx
  dsimp only
  constructor <;> (split <;> omega)

/-- C10 witness: concrete genome of length 3, index 0, raw draw 5. -/
theorem partner_never_last_witness :
    partnerIdx (List.length [(1:ℚ), 2, 3]) 0 5 ≤ List.length [(1:ℚ), 2, 3] - 2 ∧
      partnerIdx (List.length [(1:ℚ), 2, 3]) 0 5 ≠ List.length [(1:ℚ), 2, 3] - 1 :=
  partner_never_last [(1:ℚ), 2, 3] 0 5 (by decide) (by decide)

/-- C7: tournament selection on an empty fitness vector fails with the designated
empty-pool condition for every tournament size, independently of the random draws
(so before any candidate index is drawn), and never returns an index. -/
theorem tournament_empty_fails (t : TournamentSelection) (draws : Nat → Nat) :
    t.select draws [] = .error .emptyFitness := rfl

lemma pcmp_nan_left (y : FVal) : FVal.pcmp .nan y = none := by
  cases y <;> rfl

lemma pcmp_nan_right (x : FVal) : FVal.pcmp x .nan = none := by
  cases x <;> rfl

lemma maxByGo_cons (fit : List FVal) (acc b : Nat) (rest : List Nat) :
    maxByGo fit acc (b :: rest) =
      match FVal.pcmp (fit.getD acc .nan) (fit.getD b .nan) with
      | none => .error .failedCompare
      | some Ordering.gt => maxByGo fit acc rest
      | some Ordering.lt => maxByGo fit b rest
      | some Ordering.eq => maxByGo fit b rest := rfl

lemma maxByGo_nan_fails (fit : List FVal) :
    ∀ (rest : List Nat) (acc : Nat),
      ((fit.getD acc .nan = .nan ∧ rest ≠ []) ∨ ∃ j ∈ rest, fit.getD j .nan = .nan) →
      maxByGo fit acc rest = .error .failedCompare := by
  intro rest
  induction rest with
  | nil =>
    intro acc h
    rcases h with ⟨_, hne⟩ | ⟨j, hj, _⟩
    · exact absurd rfl hne
    · exact absurd hj (List.not_mem_nil j)
  | cons b rest ih =>
    intro acc h
    by_cases hacc : fit.getD acc .nan = .nan
    · rw [maxByGo_cons, hacc, pcmp_nan_left]
    · by_cases hb : fit.getD b .nan = .nan
      · rw [maxByGo_cons, hb, pcmp_nan_right]
      · have hrest : ∃ j ∈ rest, fit.getD j .nan = .nan := by
          rcases h with ⟨h1, _⟩ | ⟨j, hj, hjn⟩
          · exact absurd h1 hacc
          · rcases List.mem_cons.mp hj with rfl | hj2
            · exact absurd hjn hb
            · exact ⟨j, hj2, hjn⟩
        rw [maxByGo_cons]
        rcases hcmp : FVal.pcmp (fit.getD acc .nan) (fit.getD b .nan) with _ | ord
        · rfl
        · rcases ord with _ | _ | _
          · exact ih b (Or.inr hrest)
          · exact ih b (Or.inr hrest)
          · exact ih acc (Or.inr hrest)

lemma maxBy_nan_fails (fit : List FVal) (options : List Nat)
    (h2 : 2 ≤ options.length) (j : Nat) (hj : j ∈ options)
    (hjn : fit.getD j .nan = .nan) :
    maxBy fit options = .error .failedCompare := by
  match options, h2, hj with
  | a :: b :: rest, _, hj =>
    show maxByGo fit a (b :: rest) = .error .failedCompare
    rcases List.mem_cons.mp hj with rfl | hj2
    · exact maxByGo_nan_fails fit (b :: rest) j (Or.inl ⟨hjn, by simp⟩)
    · exact maxByGo_nan_fails fit (b :: rest) a (Or.inr ⟨j, hj2, hjn⟩)

/-- C8: during tournament selection with at least two drawn candidates, if a drawn
candidate has NaN fitness — making every fitness comparison that involves it
unordered — the call fails with the failed-comparison condition, which is distinct
from the empty-pool condition; it is never treated as a tie or an ordering. -/
theorem tournament_nan_fails (t : TournamentSelection) (draws : Nat → Nat)
    (fit : List FVal) (hfit : fit ≠ []) (hsize : 2 ≤ t.tournament_size)
    (k : Nat) (hk : k < t.tournament_size)
    (hnan : fit.getD (draws k % fit.length) .nan = .nan) :
    t.select draws fit = .error .failedCompare ∧
      SelPanic.failedCompare ≠ SelPanic.emptyFitness := by
  refine ⟨?_, by decide⟩
  have hlen : fit.length ≠ 0 := by simpa [List.length_eq_zero] using hfit
  unfold TournamentSelection.select
  dsimp only
  rw [if_neg hlen]
  exact maxBy_nan_fails fit _ (by simpa using hsize) _
    (List.mem_map.mpr ⟨k, List.mem_range.mpr hk, rfl⟩) hnan

/-- C8 witness: two candidates, the first with NaN fitness. -/
theorem tournament_nan_fails_witness :
    TournamentSelection.select ⟨2⟩ (fun k => k) [FVal.nan, FVal.val 0]
        = .error .failedCompare ∧
      SelPanic.failedCompare ≠ SelPanic.emptyFitness :=
  tournament_nan_fails ⟨2⟩ (fun k => k) [FVal.nan, FVal.val 0]
    (by decide) (by decide) 0 (by decide) (by decide)

/-- C2 (code divergence): `Population::select` is `todo!()`, so it panics
unconditionally instead of delegating to the bound Selector. -/
theorem population_select_always_panics {G F : Type} (p : Population G F) (n : Nat) :
    p.select n = .error .todoUnimplemented := rfl

/-- C1 (code divergence): with `indpb = 1` and a per-genome draw of 0 — a draw
strictly below `indpb`, so the claim mandates invoking the mutator — the code leaves
the genome untouched, because its gate is `draw > indpb` rather than `draw < indpb`. -/
theorem mutate_with_chance_gate_inverted :
    ((0:ℚ) < 1) ∧
    (Population.mutate_with_chance
        (⟨[(0:ℚ)], ([] : List ℚ), fun x => x + 1, fun a b => (a, b), fun _ _ => []⟩)
        1 (fun _ => 0)).individuals = [(0:ℚ)] := by
  constructor
  · norm_num
  · rfl

lemma take_mid_drop (l : List α) (cp len : Nat) (hcp : cp ≤ len) :
    l.take cp ++ ((l.take len).drop cp ++ l.drop len) = l := by
  have h1 : (l.take len).take cp = l.take cp := by
    rw [List.take_take, min_eq_left hcp]
  calc l.take cp ++ ((l.take len).drop cp ++ l.drop len)
      = ((l.take len).take cp ++ (l.take len).drop cp) ++ l.drop len := by
        rw [← h1, List.append_assoc]
    _ = l.take len ++ l.drop len := by rw [List.take_append_drop]
    _ = l := List.take_append_drop len l

lemma swapSuffix_snd (a b : List α) (cp len : Nat) :
    (swapSuffix cp len a b).2 = (swapSuffix cp len b a).1 := rfl

lemma swapSuffix_length_fst (a b : List α) (cp len : Nat) (hcp : cp ≤ len)
    (ha : len ≤ a.length) (hb : len ≤ b.length) :
    (swapSuffix cp len a b).1.length = a.length := by
  unfold swapSuffix
  simp only [List.length_append, List.length_take, List.length_drop]
  omega

lemma swapSuffix_multiset (a b : List α) (cp len : Nat) (hcp : cp ≤ len) :
    (((swapSuffix cp len a b).1 ++ (swapSuffix cp len a b).2 : List α) : Multiset α)
      = ((a ++ b : List α) : Multiset α) := by
  unfold swapSuffix
  dsimp only
  conv_rhs => rw [← take_mid_drop a cp len hcp, ← take_mid_drop b cp len hcp]
  simp only [← Multiset.coe_add]
  abel

/-- C5: for every pair of genomes whose shorter length is at least 2, one-point
crossover succeeds, leaves both lengths unchanged, and preserves the multiset of
elements taken across both genomes (nothing lost, nothing duplicated). -/
theorem one_point_conserves (draw : Nat) (a b : List α)
    (h : 2 ≤ min a.length b.length) :
    ∃ r1 r2, one_point draw a b = .ok (r1, r2) ∧ r1.length = a.length ∧
      r2.length = b.length ∧ ((r1 ++ r2 : List α) : Multiset α) = ((a ++ b : List α) : Multiset α) := by
  have ha : min a.length b.length ≤ a.length := min_le_left _ _
  have hb : min a.length b.length ≤ b.length := min_le_right _ _
  have hmod : draw % (min a.length b.length - 1) < min a.length b.length - 1 :=
    Nat.mod_lt _ (by omega)
  have hcp : 1 + draw % (min a.length b.length - 1) ≤ min a.length b.length := by omega
  refine ⟨(swapSuffix (1 + draw % (min a.length b.length - 1)) (min a.length b.length) a b).1,
          (swapSuffix (1 + draw % (min a.length b.length - 1)) (min a.length b.length) a b).2,
          ?_, ?_, ?_, ?_⟩
  · unfold one_point
    dsimp only
    rw [if_pos (by omega : min a.length b.length > 1)]
  · exact swapSuffix_length_fst a b _ _ hcp ha hb
  · rw [swapSuffix_snd]
    exact swapSuffix_length_fst b a _ _ hcp hb ha
  · exact swapSuffix_multiset a b _ _ hcp

/-- C5 witness: the spec example pair, lengths 4 and 7. -/
theorem one_point_conserves_witness :
    ∃ r1 r2, one_point 1 [1, 1, 1, 1] ([2, 2, 2, 2, 2, 2, 2] : List ℕ) = .ok (r1, r2) ∧
      r1.length = List.length [1, 1, 1, 1] ∧
      r2.length = List.length ([2, 2, 2, 2, 2, 2, 2] : List ℕ) ∧
      ((r1 ++ r2 : List ℕ) : Multiset ℕ)
        = (([1, 1, 1, 1] ++ [2, 2, 2, 2, 2, 2, 2] : List ℕ) : Multiset ℕ) :=
  one_point_conserves 1 [1, 1, 1, 1] [2, 2, 2, 2, 2, 2, 2] (by decide)

lemma swapSuffix_getElem_fst (a b : List α) (cp len : Nat) (hcp : cp ≤ len)
    (ha : len ≤ a.length) (hb : len ≤ b.length) :
    (∀ i, i < cp → (swapSuffix cp len a b).1[i]? = a[i]?) ∧
    (∀ i, cp ≤ i → i < len → (swapSuffix cp len a b).1[i]? = b[i]?) ∧
    (∀ i, len ≤ i → (swapSuffix cp len a b).1[i]? = a[i]?) := by
  unfold swapSuffix
  dsimp only
  have hta : (a.take cp).length = cp := by
    rw [List.length_take]; omega
  have hmb : ((b.take len).drop cp).length = len - cp := by
    rw [List.length_drop, List.length_take]; omega
  refine ⟨fun i hi => ?_, fun i hi1 hi2 => ?_, fun i hi => ?_⟩
  · rw [List.getElem?_append_left (by omega), List.getElem?_take_of_lt hi]
  · rw [List.getElem?_append_right (by omega), hta,
      List.getElem?_append_left (by omega), List.getElem?_drop,
      (by omega : cp + (i - cp) = i), List.getElem?_take_of_lt hi2]
  · rw [List.getElem?_append_right (by omega), hta,
      List.getElem?_append_right (by omega), hmb, List.getElem?_drop,
      (by omega : len + (i - cp - (len - cp)) = i)]

/-- C6: for every pair of genomes with minimum length at least 2, one-point
crossover chooses its point `cp` in `[1, min_len)` — with every point of that
range and only those realisable from some draw — swaps exactly the paired
elements at indices `[cp, min_len)`, and leaves indices below `cp` in both
genomes and trailing indices at or beyond `min_len` unchanged. -/
theorem one_point_exact (draw : Nat) (a b : List α)
    (h : 2 ≤ min a.length b.length) :
    ∃ r1 r2, one_point draw a b = .ok (r1, r2) ∧
      (1 ≤ 1 + draw % (min a.length b.length - 1) ∧
        1 + draw % (min a.length b.length - 1) < min a.length b.length) ∧
      (∀ i, i < 1 + draw % (min a.length b.length - 1) →
        r1[i]? = a[i]? ∧ r2[i]? = b[i]?) ∧
      (∀ i, 1 + draw % (min a.length b.length - 1) ≤ i → i < min a.length b.length →
        r1[i]? = b[i]? ∧ r2[i]? = a[i]?) ∧
      (∀ i, min a.length b.length ≤ i → r1[i]? = a[i]? ∧ r2[i]? = b[i]?) ∧
      (∀ c, 1 ≤ c → c < min a.length b.length →
        ∃ d, 1 + d % (min a.length b.length - 1) = c) := by
  have ha : min a.length b.length ≤ a.length := min_le_left _ _
  have hb : min a.length b.length ≤ b.length := min_le_right _ _
  have hmod : draw % (min a.length b.length - 1) < min a.length b.length - 1 :=
    Nat.mod_lt _ (by omega)
  have hcp : 1 + draw % (min a.length b.length - 1) ≤ min a.length b.length := by omega
  obtain ⟨hz1a, hz2a, hz3a⟩ :=
    swapSuffix_getElem_fst a b (1 + draw % (min a.length b.length - 1))
      (min a.length b.length) hcp ha hb
  obtain ⟨hz1b, hz2b, hz3b⟩ :=
    swapSuffix_getElem_fst b a (1 + draw % (min a.length b.length - 1))
      (min a.length b.length) hcp hb ha
  refine ⟨(swapSuffix (1 + draw % (min a.length b.length - 1)) (min a.length b.length) a b).1,
          (swapSuffix (1 + draw % (min a.length b.length - 1)) (min a.length b.length) a b).2,
          ?_, ⟨by omega, by omega⟩, ?_, ?_, ?_, ?_⟩
  · unfold one_point
    dsimp only
    rw [if_pos (by omega : min a.length b.length > 1)]
  · intro i hi
    rw [swapSuffix_snd]
    exact ⟨hz1a i hi, hz1b i hi⟩
  · intro i hi1 hi2
    rw [swapSuffix_snd]
    exact ⟨hz2a i hi1 hi2, hz2b i hi1 hi2⟩
  · intro i hi
    rw [swapSuffix_snd]
    exact ⟨hz3a i hi, hz3b i hi⟩
  · intro c hc1 hc2
    exact ⟨c - 1, by rw [Nat.mod_eq_of_lt (by omega)]; omega⟩

/-- C6 witness: the spec example — all-1s of length 4, all-2s of length 7; the
draw 1 gives crossover point 2 and output `[1,1,2,2]` and `[2,2,1,1,2,2,2]`. -/
theorem one_point_exact_witness :
    (one_point 1 [1, 1, 1, 1] ([2, 2, 2, 2, 2, 2, 2] : List ℕ)
        = .ok ([1, 1, 2, 2], [2, 2, 1, 1, 2, 2, 2])) ∧
    (∃ r1 r2, one_point 1 [1, 1, 1, 1] ([2, 2, 2, 2, 2, 2, 2] : List ℕ) = .ok (r1, r2) ∧
      (1 ≤ 1 + 1 % (min (List.length [1, 1, 1, 1]) (List.length ([2, 2, 2, 2, 2, 2, 2] : List ℕ)) - 1) ∧
        1 + 1 % (min (List.length [1, 1, 1, 1]) (List.length ([2, 2, 2, 2, 2, 2, 2] : List ℕ)) - 1)
          < min (List.length [1, 1, 1, 1]) (List.length ([2, 2, 2, 2, 2, 2, 2] : List ℕ))) ∧
      (∀ i, i < 1 + 1 % (min (List.length [1, 1, 1, 1]) (List.length ([2, 2, 2, 2, 2, 2, 2] : List ℕ)) - 1) →
        r1[i]? = [1, 1, 1, 1][i]? ∧ r2[i]? = ([2, 2, 2, 2, 2, 2, 2] : List ℕ)[i]?) ∧
      (∀ i, 1 + 1 % (min (List.length [1, 1, 1, 1]) (List.length ([2, 2, 2, 2, 2, 2, 2] : List ℕ)) - 1) ≤ i →
          i < min (List.length [1, 1, 1, 1]) (List.length ([2, 2, 2, 2, 2, 2, 2] : List ℕ)) →
        r1[i]? = ([2, 2, 2, 2, 2, 2, 2] : List ℕ)[i]? ∧ r2[i]? = [1, 1, 1, 1][i]?) ∧
      (∀ i, min (List.length [1, 1, 1, 1]) (List.length ([2, 2, 2, 2, 2, 2, 2] : List ℕ)) ≤ i →
        r1[i]? = [1, 1, 1, 1][i]? ∧ r2[i]? = ([2, 2, 2, 2, 2, 2, 2] : List ℕ)[i]?) ∧
      (∀ c, 1 ≤ c → c < min (List.length [1, 1, 1, 1]) (List.length ([2, 2, 2, 2, 2, 2, 2] : List ℕ)) →
        ∃ d, 1 + d % (min (List.length [1, 1, 1, 1]) (List.length ([2, 2, 2, 2, 2, 2, 2] : List ℕ)) - 1) = c)) :=
  ⟨rfl, one_point_exact 1 [1, 1, 1, 1] [2, 2, 2, 2, 2, 2, 2] (by decide)⟩

/-- C4: constructing the Gaussian mutator with a non-positive standard deviation
fails at construction time with the distribution error, so no `ByDist` value (and
hence no mutation) can ever arise from such parameters. -/
theorem gaussian_nonpos_sigma_fails (mean stddev indpb : ℚ) (h : stddev ≤ 0) :
    ByDist.gaussian mean stddev indpb = .error .badVariance := by
  unfold ByDist.gaussian Normal.new
  simp [h]

/-- C4 witness: σ = 0 (the boundary case of σ ≤ 0) is rejected. -/
theorem gaussian_nonpos_sigma_fails_witness :
    ((0:ℚ) ≤ 0) ∧ ByDist.gaussian 1 0 1 = .error .badVariance :=
  ⟨le_refl 0, gaussian_nonpos_sigma_fails 1 0 1 (le_refl 0)⟩

end DEARS
